import Mathlib

/-!
Shallow embedding of the `jrpc` crate (JSON-RPC 2.0 message types).

Sources embedded here:
  * `src/lib.rs` — `Id`, `IdReq`, `Request`, `Success`, `Error`, `ErrorObject`,
    `Response`, `ErrorCode`, `parse_request`, the `from_str` helpers.
  * `src/serialize.rs` — the `V2_0` and `ErrorCode` codecs.
  * `src/from_string.rs` — the diagnostic decoder `from_str`.

JSON values are modelled by the inductive `Value` below, mirroring
`serde_json::Value`.  Objects are association lists with unique keys (the
image of `serde_json`'s map type); numbers are split into i64-representable
integers and everything else (floats with fractional parts, out-of-range
integers), since the only property of a JSON number the crate inspects is
`is_i64`.  Serde's error *messages* are produced by the external serde
framework and are not modelled; where the crate itself chooses a diagnostic
(the `DeResultError` hints of `from_string.rs`, the `V2_0` visitor's
"invalid value"/"invalid type" errors) the choice is modelled by a dedicated
inductive with one constructor per format string of the source.
-/

namespace Jrpc

/-- A JSON number as the crate observes it: either an i64-representable
integer, or any other number (e.g. `4.5`), kept as its literal text.
Mirrors the `serde_json::Number` facts used by the source (`is_i64`). -/
inductive Number where
  | i64 (n : Int)
  | other (lit : String)
deriving DecidableEq

/-- Mirrors `serde_json::Number::is_i64`. -/
def Number.is_i64 : Number → Bool
  | .i64 _ => true
  | .other _ => false

/-- Mirrors `serde_json::Value` (`pub use serde_json::Value` in `lib.rs`). -/
inductive Value where
  | Null : Value
  | Bool (b : Bool) : Value
  | Number (n : Number) : Value
  | String (s : String) : Value
  | Array (xs : List Value) : Value
  | Object (kvs : List (String × Value)) : Value

/-- Key lookup in a JSON object (first occurrence; keys are unique). -/
def getKey : List (String × Value) → String → Option Value
  | [], _ => none
  | (k, v) :: rest, key => if k = key then some v else getKey rest key

/-- Mirrors `Id` of `lib.rs` (untagged: String, Int(i64), Null). -/
inductive Id where
  | String (s : String) : Id
  | Int (n : Int) : Id
  | Null : Id
deriving DecidableEq

/-- Mirrors `IdReq` of `lib.rs`: `Id` plus the `Notification` variant
(the id field being absent). -/
inductive IdReq where
  | String (s : String) : IdReq
  | Int (n : Int) : IdReq
  | Null : IdReq
  | Notification : IdReq
deriving DecidableEq

/-- Mirrors `impl From<Id> for IdReq` in `lib.rs`. -/
def Id.toIdReq : Id → IdReq
  | .String s => .String s
  | .Int i => .Int i
  | .Null => .Null

/-- Mirrors `IdReq::to_id` in `lib.rs`: `None` exactly on `Notification`. -/
def IdReq.to_id : IdReq → Option Id
  | .String s => some (.String s)
  | .Int i => some (.Int i)
  | .Null => some .Null
  | .Notification => none

/-- Mirrors `ErrorCode` of `lib.rs`. -/
inductive ErrorCode where
  | ParseError : ErrorCode
  | InvalidRequest : ErrorCode
  | MethodNotFound : ErrorCode
  | InvalidParams : ErrorCode
  | InternalError : ErrorCode
  | ServerError (n : Int) : ErrorCode
deriving DecidableEq

/-- Mirrors `ErrorCode::is_valid` in `lib.rs`. -/
def ErrorCode.is_valid : ErrorCode → Bool
  | .ServerError value => (-32099 ≤ value) && (value ≤ -32000)
  | _ => true

/-- Mirrors `impl From<i64> for ErrorCode` in `lib.rs`. -/
def ErrorCode.fromInt (v : Int) : ErrorCode :=
  if v = -32700 then .ParseError
  else if v = -32600 then .InvalidRequest
  else if v = -32601 then .MethodNotFound
  else if v = -32602 then .InvalidParams
  else if v = -32603 then .InternalError
  else .ServerError v

/-- Mirrors `impl Serialize for ErrorCode` in `serialize.rs`. -/
def ErrorCode.serialize : ErrorCode → Int
  | .ParseError => -32700
  | .InvalidRequest => -32600
  | .MethodNotFound => -32601
  | .InvalidParams => -32602
  | .InternalError => -32603
  | .ServerError value => value

/-- Mirrors the unit struct `V2_0` of `lib.rs`. -/
inductive V2_0 where
  | mk : V2_0
deriving DecidableEq

/-- The errors the `V2_0` deserializer can produce (`serialize.rs`):
`invalidValue` for `visit_str` on a wrong string (the expected literal is
`"2.0"`, from the `de::Expected` impl); `invalidType` when the input is not
a string at all (the expected text is `expecting()`'s `exactly "2.0"`). -/
inductive V2_0Error where
  | invalidValue (found : String) (expected : String)
  | invalidType (found : Value) (expected : String)

/-- Mirrors `impl Serialize for V2_0` (`serialize.rs`): always the string
`"2.0"`. -/
def V2_0.serialize : Value := Value.String "2.0"

/-- Mirrors `impl Deserialize for V2_0` via `V2_0Visitor` (`serialize.rs`):
only `visit_str` is implemented, so a non-string input fails with an
invalid-type error, and a string input succeeds only when it is exactly
`"2.0"`. -/
def V2_0.deserialize : Value → Except V2_0Error V2_0
  | .String s => if s = "2.0" then .ok .mk else .error (.invalidValue s "2.0")
  | v => .error (.invalidType v "exactly \"2.0\"")

/-- Mirrors the derived (untagged) deserialization of `Id`: a JSON string,
an i64 number, or null; anything else (including non-i64 numbers such as
`4.5`) fails. -/
def decodeId : Value → Option Id
  | .String s => some (.String s)
  | .Number (.i64 n) => some (.Int n)
  | .Null => some .Null
  | _ => none

/-- Mirrors the derived (untagged) deserialization of `IdReq` for a present
field: the `Null` unit variant matches JSON null before `Notification` is
ever tried, so a present field never decodes to `Notification`. -/
def decodeIdReq : Value → Option IdReq
  | .String s => some (.String s)
  | .Number (.i64 n) => some (.Int n)
  | .Null => some .Null
  | _ => none

/-- Mirrors the derived (untagged) serialization of `Id`. -/
def Id.serialize : Id → Value
  | .String s => .String s
  | .Int n => .Number (.i64 n)
  | .Null => .Null

/-- Mirrors the derived (untagged) serialization of `IdReq` (the
`Notification` unit variant would serialize as null, but `Request`'s
`skip_serializing_if` means it is never emitted). -/
def IdReq.serialize : IdReq → Value
  | .String s => .String s
  | .Int n => .Number (.i64 n)
  | .Null => .Null
  | .Notification => .Null

/-- Mirrors `Request<M, T>` of `lib.rs`. -/
structure Request (M T : Type) where
  jsonrpc : V2_0
  method : M
  params : Option T
  id : IdReq

/-- Mirrors `Success<T>` of `lib.rs`. -/
structure Success (T : Type) where
  jsonrpc : V2_0
  result : T
  id : Id

/-- Mirrors `ErrorObject<T>` of `lib.rs`. -/
structure ErrorObject (T : Type) where
  code : ErrorCode
  message : String
  data : Option T

/-- Mirrors `Error<T>` of `lib.rs` (the error envelope). -/
structure Error (T : Type) where
  jsonrpc : V2_0
  error : ErrorObject T
  id : Id

/-- Mirrors `Error::new` in `lib.rs`. -/
def Error.new (id : Id) (code : ErrorCode) (message : String)
    (data : Option T) : Error T :=
  { jsonrpc := .mk, error := { code := code, message := message, data := data }, id := id }

/-- Mirrors the untagged enum `Response<T>` of `lib.rs`. -/
inductive Response (T : Type) where
  | Ok (s : Success T) : Response T
  | Err (e : Error Value) : Response T

/-- Mirrors the derived serialization of `Request` (`lib.rs`): fields in
declaration order; `params` is always emitted (`None` as null, there is
no skip attribute on it); the `id` key is omitted entirely when the id is
`Notification` (`skip_serializing_if = "id_req_is_notification"`), and
emitted via `IdReq`'s untagged serialization otherwise. -/
def Request.serialize (serM : M → Value) (serT : T → Value)
    (r : Request M T) : Value :=
  Value.Object
    ([("jsonrpc", V2_0.serialize), ("method", serM r.method),
      ("params", match r.params with | none => Value.Null | some p => serT p)]
     ++ (match r.id with
         | .Notification => []
         | i => [("id", i.serialize)]))

/-- Mirrors the derived deserialization of `Request<M, T>` (`lib.rs`).
No `deny_unknown_fields`, so extra keys are ignored.  `jsonrpc` and
`method` are required; `params` has `#[serde(default)]` (absent, or
present as null, decodes to `None`); `id` has
`#[serde(default = "notification")]` (absent decodes to `Notification`;
a present value decodes through `IdReq`'s untagged deserialization).
Like every serde-derived struct, a `Request` also deserializes from a
JSON array via `visit_seq`: the fields positionally in declaration order
(`jsonrpc`, `method`, `params`, `id`); a missing trailing element uses a
field's default when it has one (`params`, `id`) and fails otherwise;
`serde_json` rejects arrays with more elements than fields.  The decoder
is parametrised by the payload decoders for `M` and `T`. -/
def Request.decode (decM : Value → Option M) (decT : Value → Option T) :
    Value → Option (Request M T)
  | .Object kvs =>
    (getKey kvs "jsonrpc").bind fun jv =>
    (V2_0.deserialize jv).toOption.bind fun _ =>
    (getKey kvs "method").bind fun mv =>
    (decM mv).bind fun m =>
    (match getKey kvs "params" with
     | none => some none
     | some .Null => some none
     | some pv => (decT pv).map some).bind fun p =>
    match getKey kvs "id" with
    | none => some { jsonrpc := .mk, method := m, params := p, id := .Notification }
    | some iv =>
      (decodeIdReq iv).map fun i =>
        { jsonrpc := .mk, method := m, params := p, id := i }
  | .Array [jv, mv] =>
    (V2_0.deserialize jv).toOption.bind fun _ =>
    (decM mv).map fun m =>
      { jsonrpc := .mk, method := m, params := none, id := .Notification }
  | .Array [jv, mv, pv] =>
    (V2_0.deserialize jv).toOption.bind fun _ =>
    (decM mv).bind fun m =>
    (match pv with
     | .Null => some none
     | pv => (decT pv).map some).bind fun p =>
    some { jsonrpc := .mk, method := m, params := p, id := .Notification }
  | .Array [jv, mv, pv, iv] =>
    (V2_0.deserialize jv).toOption.bind fun _ =>
    (decM mv).bind fun m =>
    (match pv with
     | .Null => some none
     | pv => (decT pv).map some).bind fun p =>
    (decodeIdReq iv).map fun i =>
      { jsonrpc := .mk, method := m, params := p, id := i }
  | _ => none

/-- The allowed key check of a `deny_unknown_fields` struct with fields
`jsonrpc`, `result`, `id` (`Success<T>`). -/
def successKeysOk (kvs : List (String × Value)) : Bool :=
  kvs.all fun kv => kv.1 == "jsonrpc" || kv.1 == "result" || kv.1 == "id"

/-- Mirrors the derived deserialization of `Success<T>` (`lib.rs`):
`deny_unknown_fields`, all three fields required.  The attribute only
affects the map path; like every serde-derived struct, a `Success` also
deserializes from a JSON array via `visit_seq` — exactly the three
fields positionally (`jsonrpc`, `result`, `id`), since none has a
default and `serde_json` rejects extra elements. -/
def Success.decode (decT : Value → Option T) : Value → Option (Success T)
  | .Object kvs =>
    if successKeysOk kvs then
      (getKey kvs "jsonrpc").bind fun jv =>
      (V2_0.deserialize jv).toOption.bind fun _ =>
      (getKey kvs "result").bind fun rv =>
      (decT rv).bind fun r =>
      (getKey kvs "id").bind fun iv =>
      (decodeId iv).map fun i => { jsonrpc := .mk, result := r, id := i }
    else none
  | .Array [jv, rv, iv] =>
    (V2_0.deserialize jv).toOption.bind fun _ =>
    (decT rv).bind fun r =>
    (decodeId iv).map fun i => { jsonrpc := .mk, result := r, id := i }
  | _ => none

/-- Mirrors the derived deserialization of `ErrorObject<Value>`
(`lib.rs`): no `deny_unknown_fields`; `code` and `message` required;
`data` has a defaulting attribute (absent or null decodes to `None`).
`ErrorCode`'s deserializer only implements `visit_i64`, so the code must
be an i64 number and maps through `ErrorCode::from`.  It also
deserializes from a JSON array via `visit_seq`: `code` and `message`
positionally, with `data` defaulting when the array has only two
elements. -/
def ErrorObject.decode : Value → Option (ErrorObject Value)
  | .Object kvs =>
    match getKey kvs "code", getKey kvs "message" with
    | some (.Number (.i64 c)), some (.String msg) =>
      let data : Option Value :=
        match getKey kvs "data" with
        | none => none
        | some .Null => none
        | some dv => some dv
      some { code := ErrorCode.fromInt c, message := msg, data := data }
    | _, _ => none
  | .Array [.Number (.i64 c), .String msg] =>
    some { code := ErrorCode.fromInt c, message := msg, data := none }
  | .Array [.Number (.i64 c), .String msg, dv] =>
    some { code := ErrorCode.fromInt c, message := msg,
           data := match dv with | .Null => none | dv => some dv }
  | _ => none

/-- The allowed key check of a `deny_unknown_fields` struct with fields
`jsonrpc`, `error`, `id` (`Error<T>`). -/
def errorKeysOk (kvs : List (String × Value)) : Bool :=
  kvs.all fun kv => kv.1 == "jsonrpc" || kv.1 == "error" || kv.1 == "id"

/-- Mirrors the derived deserialization of `Error<Value>` (`lib.rs`):
`deny_unknown_fields`, all three fields required.  As for `Success`, the
attribute only affects the map path: an `Error` also deserializes from a
JSON array via `visit_seq` — exactly the three fields positionally
(`jsonrpc`, `error`, `id`). -/
def Error.decode : Value → Option (Error Value)
  | .Object kvs =>
    if errorKeysOk kvs then
      (getKey kvs "jsonrpc").bind fun jv =>
      (V2_0.deserialize jv).toOption.bind fun _ =>
      (getKey kvs "error").bind fun ev =>
      (ErrorObject.decode ev).bind fun eo =>
      (getKey kvs "id").bind fun iv =>
      (decodeId iv).map fun i => { jsonrpc := .mk, error := eo, id := i }
    else none
  | .Array [jv, ev, iv] =>
    (V2_0.deserialize jv).toOption.bind fun _ =>
    (ErrorObject.decode ev).bind fun eo =>
    (decodeId iv).map fun i => { jsonrpc := .mk, error := eo, id := i }
  | _ => none

/-- Mirrors the derived (untagged) deserialization of `Response<T>`
(`lib.rs`): try `Success<T>` first, then `Error<Value>`. -/
def Response.decode (decT : Value → Option T) (v : Value) : Option (Response T) :=
  match Success.decode decT v with
  | some s => some (.Ok s)
  | none => (Error.decode v).map .Err

/-- Mirrors `Request::from_str` (`lib.rs`): it deserializes the input as
the bare payload type `T` — not as a `Request` — performing no envelope
validation at all.  The external string-to-JSON parse is modelled by the
`Option Value` input (`none` = the string is not valid JSON). -/
def Request.from_str (decT : Value → Option T) (input : Option Value) : Option T :=
  input.bind decT

/-- Mirrors `Response::from_str` (`lib.rs`): bare `T` deserialization. -/
def Response.from_str (decT : Value → Option T) (input : Option Value) : Option T :=
  input.bind decT

/-- Mirrors `Success::from_str` (`lib.rs`): bare `T` deserialization. -/
def Success.from_str (decT : Value → Option T) (input : Option Value) : Option T :=
  input.bind decT

/-- Mirrors `Error::from_str` (`lib.rs`): bare `T` deserialization. -/
def Error.from_str (decT : Value → Option T) (input : Option Value) : Option T :=
  input.bind decT

/-- Mirrors `parse_request` (`lib.rs`).  The external string parse is the
`Option Value` input (`none` = invalid JSON); the caller's method type is
abstracted by its decoder `decM`.  The message of each constructed error
is the rendered text of the underlying serde error in the source — text
produced by the external serde framework — and is modelled as `""`. -/
def parse_request (decM : Value → Option M) (input : Option Value) :
    Except (Error Value) (Request M Value) :=
  match input with
  | none => .error (Error.new Id.Null ErrorCode.ParseError "" none)
  | some value =>
    match Request.decode some some value with
    | none => .error (Error.new Id.Null ErrorCode.InvalidRequest "" none)
    | some request =>
      match decM request.method with
      | none =>
        .error (Error.new ((IdReq.to_id request.id).getD Id.Null)
          ErrorCode.MethodNotFound "" none)
      | some m =>
        .ok { jsonrpc := .mk, method := m, params := request.params, id := request.id }

/-- One constructor per diagnostic format string of `from_string.rs`
(`DeResultError` hints). -/
inductive DeHint where
  | invalidJson
  | notAnObject
  | jsonrpcMissing
  | jsonrpcIncorrect (v : Value)
  | idMissing
  | idNonI64 (n : Number)
  | idInvalidType (v : Value)
  | bothResultError
  | extraKeys (keys : List String)
  | fallback

/-- Modelled from the spec: the local decode diagnostic type `DeResultError`
(used throughout `from_string.rs` but declared in a part of the crate not
present under `src/`): a wrapper around a descriptive hint.  The hint
string is modelled by the `DeHint` constructor the source formats. -/
structure DeResultError where
  hint : DeHint

/-- Insertion of a string into a sorted list (for the `keys.sort()` of
`from_string.rs`). -/
def insertSorted (s : String) : List String → List String
  | [] => [s]
  | t :: rest =>
    match compare s t with
    | .gt => t :: insertSorted s rest
    | _ => s :: t :: rest

/-- Sorting the extra keys, mirrors `keys.sort()` in `from_string.rs`. -/
def sortKeys : List String → List String
  | [] => []
  | s :: rest => insertSorted s (sortKeys rest)

/-- The result/error-exclusivity and extra-key stages of `from_string.rs`
(lines 86-109), reached only after the jsonrpc and id checks pass.  All
paths end in an error: the typed decodes have already failed by the time
this code runs, and its last statement is the fallback diagnostic. -/
def diagnoseRest (kvs : List (String × Value)) : DeResultError :=
  if (getKey kvs "result").isSome && (getKey kvs "error").isSome then
    ⟨.bothResultError⟩
  else
    let rest := (kvs.map Prod.fst).filter fun k =>
      !(k == "jsonrpc" || k == "id" || k == "result" || k == "error")
    if rest.isEmpty then ⟨.fallback⟩ else ⟨.extraKeys (sortKeys rest)⟩

/-- The id stage of `from_string.rs` (lines 59-84): the id key must exist
and be null, a string, or an i64 number. -/
def diagnoseId (kvs : List (String × Value)) : DeResultError :=
  match getKey kvs "id" with
  | none => ⟨.idMissing⟩
  | some .Null => diagnoseRest kvs
  | some (.String _) => diagnoseRest kvs
  | some (.Number n) => if n.is_i64 then diagnoseRest kvs else ⟨.idNonI64 n⟩
  | some i => ⟨.idInvalidType i⟩

/-- The structural stages of `from_string.rs` (lines 35-109).  The jsonrpc
arm reproduces the source exactly: the pattern
`Some(Value::String(v2_0))` *binds* `v2_0` instead of comparing against
the surrounding `let v2_0 = "2.0".to_string()`, so any string value for
the `jsonrpc` key passes this stage; only an absent key or a non-string
value is reported here. -/
def diagnose : Value → DeResultError
  | .Object kvs =>
    match getKey kvs "jsonrpc" with
    | some (.String _) => diagnoseId kvs
    | none => ⟨.jsonrpcMissing⟩
    | some v => ⟨.jsonrpcIncorrect v⟩
  | _ => ⟨.notAnObject⟩

/-- Mirrors the diagnostic decoder `from_str` of `from_string.rs`.  The
crate's `Result<T>` alias (declared outside `src/`) is, from its uses in
`from_string.rs`, `Result<Response<T>, Error<Value>>`, modelled as
`Except (Error Value) (Response T)`.  Stages: typed decode as
`Response<T>`; typed decode as `Error<Value>`; generic JSON parse
(`none` input = invalid JSON); then the structural diagnosis. -/
def from_str (decT : Value → Option T) (input : Option Value) :
    Except DeResultError (Except (Error Value) (Response T)) :=
  match input.bind (Response.decode decT) with
  | some r => .ok (.ok r)
  | none =>
    match input.bind Error.decode with
    | some e => .ok (.error e)
    | none =>
      match input with
      | none => .error ⟨.invalidJson⟩
      | some v => .error (diagnose v)

/-- Observation helper: the value of key `k` when `v` is a JSON object. -/
def objKey (v : Value) (k : String) : Option Value :=
  match v with
  | .Object kvs => getKey kvs k
  | _ => none

/-- The pass condition of the id stage of `from_string.rs` (lines 68-84):
null, a string, or an i64 number. -/
def idCheckPasses : Value → Bool
  | .Null => true
  | .String _ => true
  | .Number n => n.is_i64
  | _ => false

/-- The diagnostic text serde's derived struct deserializer produces when a
required field is absent (`serde::de::Error::missing_field`).  The exact
wording for the `jsonrpc` field is asserted by the crate's own doctest at
`lib.rs` line 517: `error.error.message.contains("missing field
\x60jsonrpc\x60")`. -/
def missingFieldMessage (field : String) : String :=
  "missing field `" ++ field ++ "`"

/-- Whether one character list is a prefix of another. -/
def charsPrefixOf : List Char → List Char → Bool
  | [], _ => true
  | _ :: _, [] => false
  | a :: as, b :: bs => a == b && charsPrefixOf as bs

/-- Whether `needle` occurs contiguously inside the second list
(observation helper for diagnostic texts). -/
def charsInfixOf (needle : List Char) : List Char → Bool
  | [] => needle.isEmpty
  | c :: rest => charsPrefixOf needle (c :: rest) || charsInfixOf needle rest

/-- A key found by `getKey` satisfies any predicate `List.all` certifies. -/
theorem getKey_all {kvs : List (String × Value)} {k : String} {v : Value}
    {p : String × Value → Bool} (hfind : getKey kvs k = some v)
    (hall : kvs.all p = true) : p (k, v) = true := by
  induction kvs with
  | nil => simp [getKey] at hfind
  | cons kv rest ih =>
    obtain ⟨k', v'⟩ := kv
    rw [List.all_cons, Bool.and_eq_true] at hall
    by_cases hk : k' = k
    · subst hk
      simp [getKey] at hfind
      subst hfind
      exact hall.1
    · rw [getKey, if_neg hk] at hfind
      exact ih hfind hall.2

/-- An object with an `error` key never decodes as `Success`
(`deny_unknown_fields`). -/
theorem success_decode_none_of_error_key {T : Type} {decT : Value → Option T}
    {kvs : List (String × Value)} {ev : Value}
    (h : getKey kvs "error" = some ev) :
    Success.decode decT (Value.Object kvs) = none := by
  have hko : successKeysOk kvs = false := by
    cases hok : successKeysOk kvs with
    | false => rfl
    | true =>
      rw [successKeysOk] at hok
      have hp := getKey_all h hok
      simp at hp
  rw [Success.decode, hko]
  simp

/-- An object with a `result` key never decodes as `Error`
(`deny_unknown_fields`). -/
theorem error_decode_none_of_result_key {kvs : List (String × Value)}
    {rv : Value} (h : getKey kvs "result" = some rv) :
    Error.decode (Value.Object kvs) = none := by
  have hko : errorKeysOk kvs = false := by
    cases hok : errorKeysOk kvs with
    | false => rfl
    | true =>
      rw [errorKeysOk] at hok
      have hp := getKey_all h hok
      simp at hp
  rw [Error.decode, hko]
  simp

/-- An object whose `id` value does not decode as an `Id` never decodes as
`Success`. -/
theorem success_decode_none_of_bad_id {T : Type} {decT : Value → Option T}
    {kvs : List (String × Value)} {iv : Value}
    (hid : getKey kvs "id" = some iv) (hbad : decodeId iv = none) :
    Success.decode decT (Value.Object kvs) = none := by
  rw [Success.decode]
  split
  · rw [hid]
    cases hj : getKey kvs "jsonrpc" with
    | none => rfl
    | some jv =>
      simp only [Option.some_bind]
      cases hv : V2_0.deserialize jv with
      | error e => rfl
      | ok u =>
        simp only [Except.toOption, Option.some_bind]
        cases hr : getKey kvs "result" with
        | none => rfl
        | some rv =>
          simp only [Option.some_bind]
          cases hd : decT rv with
          | none => rfl
          | some r => simp [hbad]
  · rfl

/-- Helper observation for claim theorems: an object whose `id` value does
not decode as an `Id` never decodes as `Error`. -/
theorem error_decode_none_of_bad_id {kvs : List (String × Value)} {iv : Value}
    (hid : getKey kvs "id" = some iv) (hbad : decodeId iv = none) :
    Error.decode (Value.Object kvs) = none := by
  rw [Error.decode]
  split
  · rw [hid]
    cases hj : getKey kvs "jsonrpc" with
    | none => rfl
    | some jv =>
      simp only [Option.some_bind]
      cases hv : V2_0.deserialize jv with
      | error e => rfl
      | ok u =>
        simp only [Except.toOption, Option.some_bind]
        cases he : getKey kvs "error" with
        | none => rfl
        | some ev =>
          simp only [Option.some_bind]
          cases hd : ErrorObject.decode ev with
          | none => rfl
          | some eo => simp [hbad]
  · rfl

/-- Claim C7: `is_valid` of `ServerError n` is true exactly when
`-32099 ≤ n ≤ -32000`, and `is_valid` of each of the five named variants
is always true. -/
theorem C7_is_valid_spec :
    (∀ n : Int, ((ErrorCode.ServerError n).is_valid = true ↔ (-32099 ≤ n ∧ n ≤ -32000))) ∧
    ErrorCode.ParseError.is_valid = true ∧
    ErrorCode.InvalidRequest.is_valid = true ∧
    ErrorCode.MethodNotFound.is_valid = true ∧
    ErrorCode.InvalidParams.is_valid = true ∧
    ErrorCode.InternalError.is_valid = true := by
  refine ⟨fun n => ?_, rfl, rfl, rfl, rfl, rfl⟩
  simp [ErrorCode.is_valid]

/-- Claim C10: `IdReq.to_id` returns `none` exactly on `Notification`, maps
every other variant to the corresponding `Id` with the same payload, and
the `Id`-to-`IdReq` injection round-trips through it. -/
theorem C10_to_id_roundtrip :
    (∀ r : IdReq, (r.to_id = none ↔ r = .Notification)) ∧
    (∀ s, (IdReq.String s).to_id = some (Id.String s)) ∧
    (∀ n, (IdReq.Int n).to_id = some (Id.Int n)) ∧
    IdReq.Null.to_id = some Id.Null ∧
    (∀ v : Id, (Id.toIdReq v).to_id = some v) := by
  refine ⟨fun r => ?_, fun s => rfl, fun n => rfl, rfl, fun v => ?_⟩
  · cases r <;> simp [IdReq.to_id]
  · cases v <;> rfl

/-- Claim C3, counterexample: the variant-side round-trip fails at
`ServerError (-32700)` — it serializes to `-32700`, which decodes back to
the named variant `ParseError`, not to `ServerError (-32700)`. -/
theorem C3_roundtrip_counterexample :
    ErrorCode.fromInt (ErrorCode.serialize (ErrorCode.ServerError (-32700))) =
      ErrorCode.ParseError ∧
    (ErrorCode.fromInt (ErrorCode.serialize (ErrorCode.ServerError (-32700))) ==
      ErrorCode.ServerError (-32700)) = false := by
  exact ⟨by decide, by decide⟩

/-- Claim C3 (amended): decoding any integer yields the named variant at
its exact constant and `ServerError n` otherwise, and encoding that result
yields the integer back; the variant-side round-trip holds for the five
named variants and for every `ServerError n` whose payload is not one of
the five named constants. -/
theorem C3_error_code_roundtrip :
    (∀ n : Int, ErrorCode.serialize (ErrorCode.fromInt n) = n) ∧
    (ErrorCode.fromInt (-32700) = .ParseError ∧ ErrorCode.fromInt (-32600) = .InvalidRequest ∧
     ErrorCode.fromInt (-32601) = .MethodNotFound ∧ ErrorCode.fromInt (-32602) = .InvalidParams ∧
     ErrorCode.fromInt (-32603) = .InternalError) ∧
    (∀ n : Int, n ≠ -32700 → n ≠ -32600 → n ≠ -32601 → n ≠ -32602 → n ≠ -32603 →
      ErrorCode.fromInt n = .ServerError n) ∧
    (ErrorCode.fromInt (ErrorCode.serialize .ParseError) = .ParseError ∧
     ErrorCode.fromInt (ErrorCode.serialize .InvalidRequest) = .InvalidRequest ∧
     ErrorCode.fromInt (ErrorCode.serialize .MethodNotFound) = .MethodNotFound ∧
     ErrorCode.fromInt (ErrorCode.serialize .InvalidParams) = .InvalidParams ∧
     ErrorCode.fromInt (ErrorCode.serialize .InternalError) = .InternalError) ∧
    (∀ n : Int, n ≠ -32700 → n ≠ -32600 → n ≠ -32601 → n ≠ -32602 → n ≠ -32603 →
      ErrorCode.fromInt (ErrorCode.serialize (.ServerError n)) = .ServerError n) := by
  have hser : ∀ n : Int, ErrorCode.serialize (ErrorCode.fromInt n) = n := by
    intro n
    unfold ErrorCode.fromInt
    split_ifs with h1 h2 h3 h4 h5 <;> simp [ErrorCode.serialize, *]
  have hother : ∀ n : Int, n ≠ -32700 → n ≠ -32600 → n ≠ -32601 → n ≠ -32602 → n ≠ -32603 →
      ErrorCode.fromInt n = .ServerError n := by
    intro n h1 h2 h3 h4 h5
    unfold ErrorCode.fromInt
    rw [if_neg h1, if_neg h2, if_neg h3, if_neg h4, if_neg h5]
  refine ⟨hser, ⟨by decide, by decide, by decide, by decide, by decide⟩, hother,
    ⟨by decide, by decide, by decide, by decide, by decide⟩,
    fun n h1 h2 h3 h4 h5 => hother n h1 h2 h3 h4 h5⟩

/-- Claim C6, counterexample: at the concrete input
`{"result":null,"id":null}` — a `Success` envelope whose `jsonrpc` value
is absent — decoding fails, but the diagnostic the program produces there
is serde's missing-field message (asserted verbatim by the doctest at
`lib.rs` line 517), and that message does not contain the expected
literal `"2.0"`, contradicting the claim that absence fails with a
diagnostic naming the expected literal. -/
theorem C6_absence_diagnostic_counterexample :
    Success.decode (fun v => some v)
      (Value.Object [("result", Value.Null), ("id", Value.Null)]) = none ∧
    missingFieldMessage "jsonrpc" = "missing field `jsonrpc`" ∧
    charsInfixOf "2.0".data (missingFieldMessage "jsonrpc").data = false := by
  refine ⟨rfl, rfl, by decide⟩

/-- Claim C6 (amended): the `V2_0` marker always serializes to the JSON
string `"2.0"`; deserialization succeeds exactly on the string `"2.0"`;
a wrong string fails with an invalid-value diagnostic naming the expected
literal and a non-string value fails with an invalid-type diagnostic
naming it; an absent `jsonrpc` field makes the envelope decode fail, with
serde's missing-field diagnostic, which names the field rather than the
literal. -/
theorem C6_v2_0_codec :
    V2_0.serialize = Value.String "2.0" ∧
    (∀ v : Value, ((V2_0.deserialize v).isOk = true ↔ v = Value.String "2.0")) ∧
    (∀ s : String, s ≠ "2.0" →
      V2_0.deserialize (Value.String s) = .error (.invalidValue s "2.0")) ∧
    (∀ v : Value, (∀ s, v ≠ Value.String s) →
      V2_0.deserialize v = .error (.invalidType v "exactly \"2.0\"")) ∧
    (missingFieldMessage "jsonrpc" = "missing field `jsonrpc`" ∧
     charsInfixOf "jsonrpc".data (missingFieldMessage "jsonrpc").data = true) ∧
    (∀ (T : Type) (decT : Value → Option T) (kvs : List (String × Value)),
      getKey kvs "jsonrpc" = none → Success.decode decT (Value.Object kvs) = none) := by
  refine ⟨rfl, fun v => ?_, fun s h => ?_, fun v h => ?_, ⟨rfl, by decide⟩,
    fun T decT kvs h => ?_⟩
  · cases v with
    | String s =>
      by_cases h : s = "2.0"
      · subst h
        simp [V2_0.deserialize, Except.isOk, Except.toBool]
      · simp [V2_0.deserialize, h, Except.isOk, Except.toBool]
    | Null => simp [V2_0.deserialize, Except.isOk, Except.toBool]
    | Bool b => simp [V2_0.deserialize, Except.isOk, Except.toBool]
    | Number n => simp [V2_0.deserialize, Except.isOk, Except.toBool]
    | Array xs => simp [V2_0.deserialize, Except.isOk, Except.toBool]
    | Object kvs => simp [V2_0.deserialize, Except.isOk, Except.toBool]
  · simp [V2_0.deserialize, h]
  · cases v with
    | String s => exact absurd rfl (h s)
    | Null => rfl
    | Bool b => rfl
    | Number n => rfl
    | Array xs => rfl
    | Object kvs => rfl
  · rw [Success.decode]
    split
    · rw [h]
      rfl
    · rfl

/-- Claim C2 (evaluation at the failing input): on
`{"jsonrpc":"1.0","id":1}` the diagnostic decoder does *not* report the
"jsonrpc attribute is the incorrect value" hint — the wrong string
`"1.0"` passes the jsonrpc stage (the source's match pattern binds
instead of comparing) and the decoder falls through to the final fallback
hint.  The other arms of the stage do behave as documented: an absent key
gives the "does not exist" hint, and a non-string value gives the
"incorrect value" hint. -/
theorem C2_jsonrpc_stage_eval :
    from_str (fun v => some v)
      (some (Value.Object [("jsonrpc", Value.String "1.0"), ("id", Value.Number (Number.i64 1))])) =
      .error ⟨DeHint.fallback⟩ ∧
    from_str (fun v => some v)
      (some (Value.Object [("id", Value.Number (Number.i64 1))])) =
      .error ⟨DeHint.jsonrpcMissing⟩ ∧
    from_str (fun v => some v)
      (some (Value.Object [("jsonrpc", Value.Number (Number.other "2.0")),
        ("id", Value.Number (Number.i64 1))])) =
      .error ⟨DeHint.jsonrpcIncorrect (Value.Number (Number.other "2.0"))⟩ := by
  exact ⟨rfl, rfl, rfl⟩

/-- Claim C9: the `from_str` helpers on `Request`, `Response`, `Success`
and `Error` all deserialize the input as the bare payload type `T`, with
no envelope validation: each equals the bare `T` decode of the parsed
JSON, it succeeds whenever `T` alone decodes, and it does so even on
inputs (JSON nulls, booleans, strings, bare numbers) that no envelope
decoder ever accepts. -/
theorem C9_from_str_helpers :
    (∀ (T : Type) (decT : Value → Option T) (input : Option Value),
      Request.from_str decT input = input.bind decT ∧
      Response.from_str decT input = input.bind decT ∧
      Success.from_str decT input = input.bind decT ∧
      Error.from_str decT input = input.bind decT) ∧
    (∀ (M T : Type) (decM : Value → Option M) (decT : Value → Option T)
      (s : String) (n : Number) (b : Bool),
      Request.decode decM decT Value.Null = none ∧
      Request.decode decM decT (Value.Bool b) = none ∧
      Request.decode decM decT (Value.String s) = none ∧
      Request.decode decM decT (Value.Number n) = none ∧
      Success.decode decT Value.Null = none ∧
      Success.decode decT (Value.Bool b) = none ∧
      Success.decode decT (Value.String s) = none ∧
      Success.decode decT (Value.Number n) = none ∧
      Error.decode Value.Null = none ∧
      Error.decode (Value.Bool b) = none ∧
      Error.decode (Value.String s) = none ∧
      Error.decode (Value.Number n) = none) ∧
    (∀ (T : Type) (decT : Value → Option T) (v : Value) (t : T),
      decT v = some t → Request.from_str decT (some v) = some t ∧
        Response.from_str decT (some v) = some t ∧
        Success.from_str decT (some v) = some t ∧
        Error.from_str decT (some v) = some t) := by
  refine ⟨fun T decT input => ⟨rfl, rfl, rfl, rfl⟩,
    fun M T decM decT s n b =>
      ⟨rfl, rfl, rfl, rfl, rfl, rfl, rfl, rfl, rfl, rfl, rfl, rfl⟩,
    fun T decT v t h => ?_⟩
  refine ⟨?_, ?_, ?_, ?_⟩ <;>
    simp [Request.from_str, Response.from_str, Success.from_str, Error.from_str, h]

/-- Claim C1: `parse_request` classifies failures in three stages — invalid
JSON yields a `ParseError` envelope; JSON that does not decode as a
permissive `Request` envelope yields `InvalidRequest` with id `Null`;
a decoded envelope whose method does not decode into `M` yields
`MethodNotFound` carrying the envelope's own id (`Null` when the envelope
was a notification); otherwise the typed `Request` is returned. -/
theorem C1_parse_request_stages :
    (∀ (M : Type) (decM : Value → Option M),
      parse_request decM none = .error (Error.new Id.Null ErrorCode.ParseError "" none)) ∧
    (∀ (M : Type) (decM : Value → Option M) (v : Value),
      Request.decode (some : Value → Option Value) some v = none →
      parse_request decM (some v) =
        .error (Error.new Id.Null ErrorCode.InvalidRequest "" none)) ∧
    (∀ (M : Type) (decM : Value → Option M) (v : Value) (req : Request Value Value),
      Request.decode some some v = some req → decM req.method = none →
      parse_request decM (some v) =
        .error (Error.new ((IdReq.to_id req.id).getD Id.Null) ErrorCode.MethodNotFound "" none)) ∧
    (∀ (M : Type) (decM : Value → Option M) (v : Value) (req : Request Value Value) (m : M),
      Request.decode some some v = some req → decM req.method = some m →
      parse_request decM (some v) =
        .ok { jsonrpc := .mk, method := m, params := req.params, id := req.id }) ∧
    (∀ i : Id, (IdReq.to_id (Id.toIdReq i)).getD Id.Null = i) := by
  refine ⟨fun M decM => rfl, fun M decM v h => ?_, fun M decM v req h hm => ?_,
    fun M decM v req m h hm => ?_, fun i => ?_⟩
  · simp only [parse_request, h]
  · simp only [parse_request, h, hm]
  · simp only [parse_request, h, hm]
  · cases i <;> rfl

/-- Claim C4: serializing a `Request` whose id is `Notification` omits the
`id` key entirely, while any id in the image of `Id` is emitted exactly as
that `Id` serializes; decoding an object with no `id` key yields
`Notification`, decoding one with `"id": null` yields `IdReq.Null`, and
the two are distinct values. -/
theorem C4_notification_id_codec :
    (∀ (M T : Type) (serM : M → Value) (serT : T → Value) (m : M) (p : Option T),
      objKey (Request.serialize serM serT
        { jsonrpc := .mk, method := m, params := p, id := .Notification }) "id" = none) ∧
    (∀ (M T : Type) (serM : M → Value) (serT : T → Value) (m : M) (p : Option T) (i : Id),
      objKey (Request.serialize serM serT
        { jsonrpc := .mk, method := m, params := p, id := i.toIdReq }) "id" =
        some i.serialize) ∧
    (∀ (M T : Type) (decM : Value → Option M) (decT : Value → Option T)
      (kvs : List (String × Value)) (req : Request M T),
      Request.decode decM decT (Value.Object kvs) = some req →
      getKey kvs "id" = none → req.id = .Notification) ∧
    (∀ (M T : Type) (decM : Value → Option M) (decT : Value → Option T)
      (kvs : List (String × Value)) (req : Request M T),
      Request.decode decM decT (Value.Object kvs) = some req →
      getKey kvs "id" = some Value.Null → req.id = .Null) ∧
    (IdReq.Null == IdReq.Notification) = false := by
  refine ⟨fun M T serM serT m p => rfl, fun M T serM serT m p i => ?_,
    fun M T decM decT kvs req h hid => ?_, fun M T decM decT kvs req h hid => ?_,
    by decide⟩
  · cases i <;> rfl
  · rw [Request.decode] at h
    simp only [Option.bind_eq_some] at h
    obtain ⟨jv, hj, u, hu, mv, hm, m, hdm, p, hp, hfin⟩ := h
    rw [hid] at hfin
    simp only [Option.some.injEq] at hfin
    rw [← hfin]
  · rw [Request.decode] at h
    simp only [Option.bind_eq_some] at h
    obtain ⟨jv, hj, u, hu, mv, hm, m, hdm, p, hp, hfin⟩ := h
    rw [hid] at hfin
    simp only [decodeIdReq, Option.map_some', Option.some.injEq] at hfin
    rw [← hfin]

/-- Claim C5: in the diagnostic decoder, a JSON object that passes the
jsonrpc stage (any string value, per the source) and the id stage but
contains both a `result` and an `error` key fails with the specific
"both `result` and `error` fields are present" diagnostic, not a generic
decode failure. -/
theorem C5_both_result_and_error (T : Type) (decT : Value → Option T)
    (kvs : List (String × Value)) (s : String) (idv rv ev : Value)
    (hj : getKey kvs "jsonrpc" = some (Value.String s))
    (hid : getKey kvs "id" = some idv) (hidok : idCheckPasses idv = true)
    (hr : getKey kvs "result" = some rv) (he : getKey kvs "error" = some ev) :
    from_str decT (some (Value.Object kvs)) = .error ⟨DeHint.bothResultError⟩ := by
  have hsucc : Success.decode decT (Value.Object kvs) = none :=
    success_decode_none_of_error_key he
  have herr := error_decode_none_of_result_key hr
  have hresp : Response.decode decT (Value.Object kvs) = none := by
    rw [Response.decode, hsucc, herr]
    rfl
  have hrest : diagnoseRest kvs = ⟨DeHint.bothResultError⟩ := by
    rw [diagnoseRest, hr, he]
    simp
  have hdiag : diagnose (Value.Object kvs) = ⟨DeHint.bothResultError⟩ := by
    rw [diagnose, hj, diagnoseId, hid]
    cases idv with
    | Null => exact hrest
    | String s2 => exact hrest
    | Number n =>
      simp only [idCheckPasses] at hidok
      simp [hidok, hrest]
    | Bool b => simp [idCheckPasses] at hidok
    | Array xs => simp [idCheckPasses] at hidok
    | Object o => simp [idCheckPasses] at hidok
  rw [from_str]
  simp only [Option.some_bind]
  rw [hresp, herr, hdiag]

/-- Witness for claim C5 at a concrete input: the object
`{"jsonrpc":"2.0","id":1,"result":1,"error":2}` yields exactly the
both-fields diagnostic. -/
theorem C5_both_result_and_error_witness :
    from_str (fun v => some v)
      (some (Value.Object [("jsonrpc", Value.String "2.0"),
        ("id", Value.Number (Number.i64 1)),
        ("result", Value.Number (Number.i64 1)),
        ("error", Value.Number (Number.i64 2))])) =
      .error ⟨DeHint.bothResultError⟩ :=
  C5_both_result_and_error Value (fun v => some v)
    [("jsonrpc", Value.String "2.0"), ("id", Value.Number (Number.i64 1)),
     ("result", Value.Number (Number.i64 1)), ("error", Value.Number (Number.i64 2))]
    "2.0" (Value.Number (Number.i64 1)) (Value.Number (Number.i64 1))
    (Value.Number (Number.i64 2)) rfl rfl rfl rfl rfl

/-- Claim C8: a JSON number that is not an i64 (e.g. `4.5`) never decodes
as an `Id`, and in the diagnostic decoder an object whose id is such a
number fails with the "id is a non-i64 number" diagnostic. -/
theorem C8_non_integral_id_rejected :
    (∀ lit : String, decodeId (Value.Number (Number.other lit)) = none) ∧
    (∀ n : Number, n.is_i64 = false → decodeId (Value.Number n) = none) ∧
    (∀ (T : Type) (decT : Value → Option T) (kvs : List (String × Value))
      (s : String) (n : Number),
      getKey kvs "jsonrpc" = some (Value.String s) →
      getKey kvs "id" = some (Value.Number n) → n.is_i64 = false →
      from_str decT (some (Value.Object kvs)) = .error ⟨DeHint.idNonI64 n⟩) := by
  have hbad : ∀ n : Number, n.is_i64 = false → decodeId (Value.Number n) = none := by
    intro n h
    cases n with
    | i64 m => simp [Number.is_i64] at h
    | other lit => rfl
  refine ⟨fun lit => rfl, hbad, fun T decT kvs s n hj hid hni => ?_⟩
  have hsucc : Success.decode decT (Value.Object kvs) = none :=
    success_decode_none_of_bad_id hid (hbad n hni)
  have herr := error_decode_none_of_bad_id hid (hbad n hni)
  have hresp : Response.decode decT (Value.Object kvs) = none := by
    rw [Response.decode, hsucc, herr]
    rfl
  have hdiag : diagnose (Value.Object kvs) = ⟨DeHint.idNonI64 n⟩ := by
    rw [diagnose, hj, diagnoseId, hid]
    simp [hni]
  rw [from_str]
  simp only [Option.some_bind]
  rw [hresp, herr, hdiag]

end Jrpc
